import Mathlib

/-!
Verification of the Sewer Flow QA engine
(`backend/qa_engine.py`: `SewerQAEngine`, `StormEventAnalyzer`).

Numeric series are embedded as `List ℚ` (exact rationals standing for the
finite float samples).  Pandas scalar results that can be NaN are embedded in
the domain `PFloat`: either NaN, or the exact value `s * √q` with the sign
`s ∈ {-1,0,1}` and a nonnegative rational `q`.  Every scalar produced by the
embedded functions (means, standard deviations, their quotients, Pearson
correlations) lies in this domain, and comparisons with `0` used by the code
(`<= 0`, `== 0`, both `False` on NaN, as in Python) are decidable on it.
Timestamps are rationals counting seconds; `Timedelta.total_seconds` is then
plain subtraction.
-/

namespace SewerQA

/-- A pandas float scalar: NaN, or the real number `s * √q` (canonical form:
`s ∈ {-1,0,1}`, `0 ≤ q`, and `s = 0 ↔ q = 0`).  The embedded code only ever
builds values of this shape. -/
inductive PFloat
  | nan : PFloat
  | val (s : ℤ) (q : ℚ) : PFloat
deriving DecidableEq

/-- Sign of a rational, as used to put plain rationals in canonical form. -/
def sign' (r : ℚ) : ℤ := if 0 < r then 1 else if r < 0 then -1 else 0

/-- Embed an exact rational `r` as the `PFloat` `sign r * √(r²)`. -/
def PFloat.ofRat (r : ℚ) : PFloat := .val (sign' r) (r ^ 2)

/-- `√q` for a nonnegative rational `q` (the only square roots the code takes
are of variances, which are nonnegative). -/
def PFloat.sqrtNN (q : ℚ) : PFloat := .val (if q = 0 then 0 else 1) q

/-- Division of pandas scalars: NaN propagates; `(s₁√q₁)/(s₂√q₂) = (s₁s₂)√(q₁/q₂)`.
A zero divisor is mapped to NaN; in the embedded functions every division is
guarded so that the divisor is nonzero, so this branch is never taken. -/
def PFloat.div : PFloat → PFloat → PFloat
  | .nan, _ => .nan
  | _, .nan => .nan
  | .val s₁ q₁, .val s₂ q₂ => if s₂ = 0 then .nan else .val (s₁ * s₂) (q₁ / q₂)

/-- Python `x <= 0` on a pandas scalar: `False` for NaN. -/
def PFloat.leZero : PFloat → Bool
  | .nan => false
  | .val s _ => s ≤ 0

/-- Python `x == 0` on a pandas scalar: `False` for NaN. -/
def PFloat.eqZero : PFloat → Bool
  | .nan => false
  | .val s _ => s = 0

/-- Mean of a list of rationals (`series.mean()` for a nonempty series). -/
def meanQ (l : List ℚ) : ℚ := l.sum / l.length

/-- Sum of squared deviations from the mean, `Σ (x - x̄)²`. -/
def sumSqDev (l : List ℚ) : ℚ :=
  (l.map (fun x => (x - meanQ l) ^ 2)).sum

/-- `series.mean()`: NaN on an empty series, else the exact mean. -/
def pmean (l : List ℚ) : PFloat :=
  if l.isEmpty then .nan else .ofRat (meanQ l)

/-- `series.std()` (pandas default `ddof = 1`): NaN when the series has fewer
than 2 samples, else `√(Σ(x-x̄)²/(n-1))`. -/
def pstd (l : List ℚ) : PFloat :=
  if l.length < 2 then .nan else .sqrtNN (sumSqDev l / ((l.length : ℚ) - 1))

/-- `flow.corr(depth)` (Pearson): the two series are aligned positionally
(default `RangeIndex`), i.e. zipped, truncating to the shorter one; the result
is NaN when fewer than 2 aligned pairs exist or either aligned column has zero
variance, else `Sxy / √(Sxx · Syy)`, embedded as `sign Sxy * √(Sxy²/(Sxx·Syy))`. -/
def pearson (xs ys : List ℚ) : PFloat :=
  let ps := xs.zip ys
  if ps.length < 2 then .nan else
  let as' := ps.map Prod.fst
  let bs := ps.map Prod.snd
  let sxx := sumSqDev as'
  let syy := sumSqDev bs
  let sxy := (ps.map (fun p => (p.1 - meanQ as') * (p.2 - meanQ bs))).sum
  if sxx = 0 ∨ syy = 0 then .nan
  else .val (sign' sxy) (sxy ^ 2 / (sxx * syy))

/-- `SewerQAEngine.calculate_diurnal_flatness`:
`mu = series.mean(); sigma = series.std(); if mu <= 0: return 0.0; return sigma / mu`. -/
def calculate_diurnal_flatness (series : List ℚ) : PFloat :=
  let mu := pmean series
  let sigma := pstd series
  if mu.leZero then .ofRat 0 else sigma.div mu

/-- `SewerQAEngine.calculate_hydraulic_coherence`:
`if len(flow) < 2 or flow.std() == 0 or depth.std() == 0: return 0.0;
return flow.corr(depth)`. -/
def calculate_hydraulic_coherence (flow depth : List ℚ) : PFloat :=
  if flow.length < 2 || (pstd flow).eqZero || (pstd depth).eqZero then .ofRat 0
  else pearson flow depth

/-- The metrics record passed to `generate_rag_status`: a dict in which any of
the four consulted keys may be absent (`None` here models an absent key). -/
structure Metrics where
  depth_dropout_pct : Option ℚ := none
  flow_cv : Option ℚ := none
  qh_correlation : Option ℚ := none
  completeness : Option ℚ := none

/-- The number of flags raised by `generate_rag_status`: the four `metrics.get`
checks with their defaults, summed. -/
def flagCount (m : Metrics) : ℕ :=
  (if m.depth_dropout_pct.getD 0 > 20 then 1 else 0)
  + (if m.flow_cv.getD 1 < (5 / 100 : ℚ) then 1 else 0)
  + (if m.qh_correlation.getD 1 < (3 / 10 : ℚ) then 1 else 0)
  + (if m.completeness.getD 100 < 95 then 1 else 0)

/-- `SewerQAEngine.generate_rag_status`: count flags, then
`0 → "GOOD"`, `1..2 → "MODERATE"`, otherwise `"BAD"`. -/
def generate_rag_status (m : Metrics) : String :=
  let flags := flagCount m
  if flags = 0 then "GOOD"
  else if 1 ≤ flags ∧ flags ≤ 2 then "MODERATE"
  else "BAD"

/-- An open (not yet finalized) storm, mirroring the `current_storm` dict built
by `StormEventAnalyzer.detect_storms` before `_finalize_storm` runs: the
accumulated rain-positive values are still present as `data`. -/
structure OpenStorm where
  id : ℕ
  start_time : ℚ
  end_time : ℚ
  data : List ℚ
  peak_intensity : ℚ
deriving DecidableEq

/-- A finalized storm, mirroring the dict returned by
`StormEventAnalyzer._finalize_storm` (the `data` key has been deleted and
`depth_mm`, `duration_mins`, `status` filled in). -/
structure Storm where
  id : ℕ
  start_time : ℚ
  end_time : ℚ
  depth_mm : ℚ
  peak_intensity : ℚ
  duration_mins : ℤ
  status : String
deriving DecidableEq

/-- Python `int()` applied to a rational: truncation toward zero
(`Int.div` is T-division). -/
def ratTrunc (q : ℚ) : ℤ := Int.tdiv q.num (q.den : ℤ)

/-- `StormEventAnalyzer._finalize_storm`: `depth_mm = sum(data)`,
`duration_mins = int((end - start).total_seconds() / 60)` (timestamps are in
seconds), `status = "Significant" if depth_mm > 5 or peak_intensity >= 6 else
"Minor"`; `data` is dropped. -/
def finalize_storm (c : OpenStorm) : Storm :=
  let depth := c.data.sum
  { id := c.id
    start_time := c.start_time
    end_time := c.end_time
    depth_mm := depth
    peak_intensity := c.peak_intensity
    duration_mins := ratTrunc ((c.end_time - c.start_time) / 60)
    status := if depth > 5 ∨ c.peak_intensity ≥ 6 then "Significant" else "Minor" }

/-- The loop body of `detect_storms`, shared by every rain-positive branch:
`current_storm["data"].append(rain); current_storm["end_time"] = ts;
current_storm["peak_intensity"] = max(peak_intensity, rain)`. -/
def extend (c : OpenStorm) (ts rain : ℚ) : OpenStorm :=
  { c with data := c.data ++ [rain], end_time := ts,
           peak_intensity := max c.peak_intensity rain }

/-- The loop state of `detect_storms`: finalized storms so far, the optional
open storm, and `last_rain_time`. -/
structure ScanState where
  storms : List Storm
  current : Option OpenStorm
  lastRain : Option ℚ

/-- A fresh `current_storm` dict as built by `detect_storms`:
`{"id": len(storms)+1, "start_time": ts, "end_time": ts, "data": [],
"peak_intensity": 0}`. -/
def freshStorm (n : ℕ) (ts : ℚ) : OpenStorm :=
  { id := n + 1, start_time := ts, end_time := ts, data := [], peak_intensity := 0 }

/-- One iteration of the `detect_storms` loop on sample `(ts, rain)`.
Samples with `rain ≤ 0` are skipped.  For a rain-positive sample: open a storm
if none is open; else if `last_rain_time` is set (Python truthiness) and
`(ts - last_rain_time)` exceeds `dry_gap_hours` hours, finalize the open storm
and open a new one; finally extend the open storm with this sample and set
`last_rain_time = ts`. -/
def stepStorm (gap : ℚ) (st : ScanState) (sample : ℚ × ℚ) : ScanState :=
  let ts := sample.1
  let rain := sample.2
  if 0 < rain then
    match st.current, st.lastRain with
    | none, _ =>
        { storms := st.storms
          current := some (extend (freshStorm st.storms.length ts) ts rain)
          lastRain := some ts }
    | some c, some lt =>
        if (ts - lt) / 3600 > gap then
          let storms := st.storms ++ [finalize_storm c]
          { storms := storms
            current := some (extend (freshStorm storms.length ts) ts rain)
            lastRain := some ts }
        else
          { storms := st.storms
            current := some (extend c ts rain)
            lastRain := some ts }
    | some c, none =>
        { storms := st.storms
          current := some (extend c ts rain)
          lastRain := some ts }
  else st

/-- The initial loop state of `detect_storms`: `storms = []`,
`current_storm = None`, `last_rain_time = None`. -/
def initState : ScanState := { storms := [], current := none, lastRain := none }

/-- `StormEventAnalyzer.detect_storms`: return `[]` for an empty rainfall
series; otherwise scan `zip(timestamps, rainfall_series)` in order, and after
the loop finalize the storm still open, if any. -/
def detect_storms (rainfall timestamps : List ℚ) (dry_gap_hours : ℚ) : List Storm :=
  if rainfall.isEmpty then [] else
  let final := (timestamps.zip rainfall).foldl (stepStorm dry_gap_hours) initState
  match final.current with
  | some c => final.storms ++ [finalize_storm c]
  | none => final.storms

/-- The start/end timestamp pair of a finalized storm. -/
def stormPair (s : Storm) : ℚ × ℚ := (s.start_time, s.end_time)

/-- The start/end timestamp pair of an open storm. -/
def openPair (c : OpenStorm) : ℚ × ℚ := (c.start_time, c.end_time)

/-- The start/end pairs of all storms held in a scan state: finalized storms
first (in order), then the open storm, if any. -/
def statePairs (st : ScanState) : List (ℚ × ℚ) :=
  st.storms.map stormPair ++ (st.current.map openPair).toList

/-- Loop invariant of the `detect_storms` scan, relative to the samples not
yet processed (`rest`): finalized storms carry the sequential ids `1, 2, …`
and the open storm the next id; an absent open storm means nothing has been
seen yet; `last_rain_time` is the open storm's `end_time`; all depths and
peaks are positive; each storm's `start ≤ end`; any earlier storm ends no
later than a later one starts; every recorded timestamp is at most every
remaining sample's timestamp; and adjacent storm pairs are separated by
strictly more than `gap` hours (`gap * 3600` seconds). -/
structure Inv (gap : ℚ) (st : ScanState) (rest : List (ℚ × ℚ)) : Prop where
  ids : ∀ k (h : k < st.storms.length), (st.storms.get ⟨k, h⟩).id = k + 1
  curId : ∀ c, st.current = some c → c.id = st.storms.length + 1
  noneEmpty : st.current = none → st.storms = []
  lastEq : ∀ c, st.current = some c → st.lastRain = some c.end_time
  depthPos : ∀ s ∈ st.storms, 0 < s.depth_mm ∧ 0 < s.peak_intensity
  curPos : ∀ c, st.current = some c → 0 < c.data.sum ∧ 0 < c.peak_intensity
  startLe : ∀ p ∈ statePairs st, p.1 ≤ p.2
  sep : (statePairs st).Pairwise (fun a b => a.2 ≤ b.1)
  future : ∀ p ∈ statePairs st, ∀ r ∈ rest, p.2 ≤ r.1
  gapChain : (statePairs st).Chain' (fun a b => b.1 - a.2 > gap * 3600)

/-- The concrete metrics record of claim C3, written with the code's key
names (the spec calls the fields `dropout_pct`, `diurnal_cv`,
`qh_correlation`, `completeness_pct`). -/
def c3Metrics : Metrics :=
  { depth_dropout_pct := some 25, flow_cv := some (1 / 2),
    qh_correlation := some (1 / 2), completeness := some 99 }

/-- The empty metrics record (every key absent). -/
def emptyMetrics : Metrics := {}

/-- Placeholder storm used as the default of `List.getD` when stating indexed
properties of a storm list; the theorems only consult in-range indices. -/
def dummyStorm : Storm :=
  { id := 0, start_time := 0, end_time := 0, depth_mm := 0, peak_intensity := 0,
    duration_mins := 0, status := "" }

/-- The single storm produced by `detect_storms [1, 2] [0, 60] 6`: samples 1
and 2 one minute apart form one burst of depth 3, peak 2, duration 1 minute,
classified Minor. -/
def c10Storm : Storm :=
  { id := 1, start_time := 0, end_time := 60, depth_mm := 3, peak_intensity := 2,
    duration_mins := 1, status := "Minor" }

section Theorems

theorem stormPair_finalize (c : OpenStorm) :
    stormPair (finalize_storm c) = openPair c := rfl

theorem ids_concat {S : List Storm} {t : Storm}
    (hS : ∀ k (h : k < S.length), (S.get ⟨k, h⟩).id = k + 1)
    (ht : t.id = S.length + 1) :
    ∀ k (h : k < (S ++ [t]).length), ((S ++ [t]).get ⟨k, h⟩).id = k + 1 := by
  intro k h
  simp only [List.length_append, List.length_singleton] at h
  by_cases hk : k < S.length
  · rw [List.get_append k hk]
    exact hS k hk
  · have hke : k = S.length := by omega
    subst hke
    rw [List.get_eq_getElem, List.getElem_concat_length _ _ _ rfl]
    exact ht

theorem inv_init {gap : ℚ} (l : List (ℚ × ℚ)) : Inv gap initState l := by
  refine ⟨?_, ?_, ?_, ?_, ?_, ?_, ?_, ?_, ?_, ?_⟩ <;>
    simp [initState, statePairs]

theorem inv_step {gap : ℚ} {st : ScanState} {x : ℚ × ℚ} {rest : List (ℚ × ℚ)}
    (hinv : Inv gap st (x :: rest)) (hx : ∀ r ∈ rest, x.1 ≤ r.1) :
    Inv gap (stepStorm gap st x) rest := by
  obtain ⟨S, cur, lr⟩ := st
  obtain ⟨ids, curId, noneEmpty, lastEq, depthPos, curPos, startLe, sep, future, gapChain⟩ := hinv
  by_cases hrain : 0 < x.2
  · rcases cur with _ | c
    · -- no open storm: S = [], a fresh storm is opened and extended with x
      have hS : S = [] := noneEmpty rfl
      subst hS
      simp only [stepStorm]
      rw [if_pos hrain]
      refine ⟨?_, ?_, ?_, ?_, ?_, ?_, ?_, ?_, ?_, ?_⟩
      · intro k h
        simp at h
      · intro c hc
        cases hc
        rfl
      · intro h
        simp at h
      · intro c hc
        cases hc
        rfl
      · intro s hs
        simp at hs
      · intro c hc
        cases hc
        refine ⟨?_, ?_⟩
        · simpa [extend, freshStorm] using hrain
        · simp only [extend, freshStorm]
          exact lt_max_of_lt_right hrain
      · intro p hp
        simp [statePairs, extend, freshStorm, openPair] at hp
        simp [hp]
      · simp [statePairs]
      · intro p hp r hr
        simp [statePairs, extend, freshStorm, openPair] at hp
        simp [hp]
        exact hx r hr
      · simp [statePairs]
    · rcases lr with _ | lt
      · exact absurd (lastEq c rfl) (by simp)
      · have hlt : lt = c.end_time := by
          have := lastEq c rfl
          simpa using this
        subst hlt
        have hmemc : openPair c ∈ statePairs ⟨S, some c, some c.end_time⟩ :=
          List.mem_append_right _ (by simp [statePairs])
        have hcEndLe : c.end_time ≤ x.1 := by
          have := future (openPair c) hmemc x (List.mem_cons_self x rest)
          simpa [openPair] using this
        have hcStartLe : c.start_time ≤ c.end_time := by
          have := startLe (openPair c) hmemc
          simpa [openPair] using this
        have hsepA := List.pairwise_append.mp sep
        have hchainA := List.chain'_append.mp gapChain
        by_cases hgap : (x.1 - c.end_time) / 3600 > gap
        · -- close the open storm and start a fresh one at x
          simp only [stepStorm]
          rw [if_pos hrain, if_pos hgap]
          have hpnew : statePairs ⟨S ++ [finalize_storm c],
              some (extend (freshStorm (S ++ [finalize_storm c]).length x.1) x.1 x.2),
              some x.1⟩
              = (S.map stormPair ++ [openPair c]) ++ [(x.1, x.1)] := by
            simp [statePairs, extend, freshStorm, openPair, stormPair_finalize]
          refine ⟨?_, ?_, ?_, ?_, ?_, ?_, ?_, ?_, ?_, ?_⟩
          · exact ids_concat ids (curId c rfl)
          · intro c' hc'
            cases hc'
            simp [extend, freshStorm]
          · intro h
            simp at h
          · intro c' hc'
            cases hc'
            rfl
          · intro s hs
            rcases List.mem_append.mp hs with hs | hs
            · exact depthPos s hs
            · have hfc : s = finalize_storm c := by simpa using hs
              subst hfc
              have := curPos c rfl
              exact ⟨by simpa [finalize_storm] using this.1,
                by simpa [finalize_storm] using this.2⟩
          · intro c' hc'
            cases hc'
            refine ⟨?_, ?_⟩
            · simpa [extend, freshStorm] using hrain
            · simp only [extend, freshStorm]
              exact lt_max_of_lt_right hrain
          · intro p hp
            rw [hpnew] at hp
            rcases List.mem_append.mp hp with hp | hp
            · exact startLe p hp
            · have hp' : p = (x.1, x.1) := by simpa using hp
              simp [hp']
          · rw [hpnew, List.pairwise_append]
            refine ⟨sep, by simp, ?_⟩
            intro a ha b hb
            have hb' : b = (x.1, x.1) := by simpa using hb
            subst hb'
            exact future a ha x (List.mem_cons_self x rest)
          · intro p hp r hr
            rw [hpnew] at hp
            rcases List.mem_append.mp hp with hp | hp
            · exact future p hp r (List.mem_cons_of_mem _ hr)
            · have hp' : p = (x.1, x.1) := by simpa using hp
              subst hp'
              exact hx r hr
          · rw [hpnew, List.chain'_append]
            refine ⟨gapChain, by simp, ?_⟩
            intro y hy z hz
            have hy' : openPair c = y := by
              rw [List.getLast?_concat] at hy
              simpa using hy
            have hz' : (x.1, x.1) = z := by simpa using hz
            subst hy'
            subst hz'
            simp only [openPair]
            have := (lt_div_iff (by norm_num : (0 : ℚ) < 3600)).mp hgap
            linarith
        · -- extend the open storm with x
          simp only [stepStorm]
          rw [if_pos hrain, if_neg hgap]
          have hpnew : statePairs ⟨S, some (extend c x.1 x.2), some x.1⟩
              = S.map stormPair ++ [(c.start_time, x.1)] := by
            simp [statePairs, extend, openPair]
          refine ⟨?_, ?_, ?_, ?_, ?_, ?_, ?_, ?_, ?_, ?_⟩
          · exact ids
          · intro c' hc'
            cases hc'
            simpa [extend] using curId c rfl
          · intro h
            simp at h
          · intro c' hc'
            cases hc'
            rfl
          · exact depthPos
          · intro c' hc'
            cases hc'
            have hc0 := curPos c rfl
            refine ⟨?_, ?_⟩
            · simp only [extend, List.sum_append, List.sum_cons, List.sum_nil]
              linarith [hc0.1]
            · simp only [extend]
              exact lt_max_of_lt_left hc0.2
          · intro p hp
            rw [hpnew] at hp
            rcases List.mem_append.mp hp with hp | hp
            · exact startLe p (List.mem_append_left _ hp)
            · have hp' : p = (c.start_time, x.1) := by simpa using hp
              subst hp'
              exact le_trans hcStartLe hcEndLe
          · rw [hpnew, List.pairwise_append]
            refine ⟨hsepA.1, by simp, ?_⟩
            intro a ha b hb
            have hb' : b = (c.start_time, x.1) := by simpa using hb
            subst hb'
            have := hsepA.2.2 a ha (openPair c) (by simp)
            simpa [openPair] using this
          · intro p hp r hr
            rw [hpnew] at hp
            rcases List.mem_append.mp hp with hp | hp
            · exact future p (List.mem_append_left _ hp) r (List.mem_cons_of_mem _ hr)
            · have hp' : p = (c.start_time, x.1) := by simpa using hp
              subst hp'
              exact hx r hr
          · rw [hpnew, List.chain'_append]
            refine ⟨hchainA.1, by simp, ?_⟩
            intro y hy z hz
            have hz' : (c.start_time, x.1) = z := by simpa using hz
            subst hz'
            have := hchainA.2.2 y hy (openPair c) (by simp [openPair])
            simpa [openPair] using this
  · simp only [stepStorm]
    rw [if_neg hrain]
    exact ⟨ids, curId, noneEmpty, lastEq, depthPos, curPos, startLe, sep,
      fun p hp r hr => future p hp r (List.mem_cons_of_mem _ hr), gapChain⟩

theorem ids_congr {l₁ l₂ : List Storm} (h : l₁ = l₂)
    (hl : ∀ k (hk : k < l₂.length), (l₂.get ⟨k, hk⟩).id = k + 1) :
    ∀ k (hk : k < l₁.length), (l₁.get ⟨k, hk⟩).id = k + 1 := by
  subst h
  exact hl

theorem inv_fold {gap : ℚ} : ∀ (l : List (ℚ × ℚ)) (st : ScanState),
    Inv gap st l → l.Pairwise (fun a b => a.1 ≤ b.1) →
    Inv gap (l.foldl (stepStorm gap) st) []
  | [], _, h, _ => h
  | x :: xs, st, h, hp => by
      rw [List.foldl_cons]
      have hpc := List.pairwise_cons.mp hp
      exact inv_fold xs _ (inv_step h hpc.1) hpc.2

theorem zip_pairwise_fst : ∀ (l₁ l₂ : List ℚ), l₁.Pairwise (· ≤ ·) →
    (l₁.zip l₂).Pairwise (fun a b => a.1 ≤ b.1)
  | [], _, _ => by simp
  | _ :: _, [], _ => by simp [List.zip_nil_right]
  | a :: l₁, b :: l₂, h => by
      rw [List.zip_cons_cons, List.pairwise_cons]
      have hc := List.pairwise_cons.mp h
      refine ⟨?_, zip_pairwise_fst l₁ l₂ hc.2⟩
      intro p hp
      rcases p with ⟨u, v⟩
      exact hc.1 u (List.of_mem_zip hp).1

/-- Everything the scan invariant yields about the final storm list: positive
depths and peaks, ordered per-storm timestamps, sequential ids, pairwise
time-separation and the adjacent dry-gap chain. -/
theorem detect_storms_inv (rainfall timestamps : List ℚ) (gap : ℚ)
    (hsort : timestamps.Pairwise (· ≤ ·)) :
    (∀ s ∈ detect_storms rainfall timestamps gap,
        0 < s.depth_mm ∧ 0 < s.peak_intensity ∧ s.start_time ≤ s.end_time) ∧
    (∀ k (h : k < (detect_storms rainfall timestamps gap).length),
        ((detect_storms rainfall timestamps gap).get ⟨k, h⟩).id = k + 1) ∧
    ((detect_storms rainfall timestamps gap).map stormPair).Pairwise
      (fun a b => a.2 ≤ b.1) ∧
    ((detect_storms rainfall timestamps gap).map stormPair).Chain'
      (fun a b => b.1 - a.2 > gap * 3600) ∧
    (∀ p ∈ (detect_storms rainfall timestamps gap).map stormPair, p.1 ≤ p.2) := by
  by_cases hre : rainfall.isEmpty
  · simp [detect_storms, hre]
  · set final := (timestamps.zip rainfall).foldl (stepStorm gap) initState with hfinal
    have hinv : Inv gap final [] :=
      inv_fold (timestamps.zip rainfall) initState (inv_init _)
        (zip_pairwise_fst timestamps rainfall hsort)
    obtain ⟨ids, curId, noneEmpty, lastEq, depthPos, curPos, startLe, sep, future,
      gapChain⟩ := hinv
    have hres : detect_storms rainfall timestamps gap =
        match final.current with
        | some c => final.storms ++ [finalize_storm c]
        | none => final.storms := by
      simp only [detect_storms, hre, Bool.false_eq_true, if_false, hfinal]
    rcases hcur : final.current with _ | c
    · have hlist : detect_storms rainfall timestamps gap = final.storms := by
        rw [hres]
        simp only [hcur]
      have hsp : statePairs final = final.storms.map stormPair := by
        simp [statePairs, hcur]
      refine ⟨?_, ids_congr hlist ids, ?_, ?_, ?_⟩
      · intro s hs
        rw [hlist] at hs
        have hmem : stormPair s ∈ statePairs final := by
          rw [hsp]
          exact List.mem_map_of_mem _ hs
        exact ⟨(depthPos s hs).1, (depthPos s hs).2, startLe _ hmem⟩
      · rw [hlist, ← hsp]
        exact sep
      · rw [hlist, ← hsp]
        exact gapChain
      · intro p hp
        rw [hlist, ← hsp] at hp
        exact startLe p hp
    · have hlist : detect_storms rainfall timestamps gap
          = final.storms ++ [finalize_storm c] := by
        rw [hres]
        simp only [hcur]
      have hsp : statePairs final = (final.storms ++ [finalize_storm c]).map stormPair := by
        simp [statePairs, hcur, stormPair_finalize]
      refine ⟨?_, ids_congr hlist (ids_concat ids
        (by simpa [finalize_storm] using curId c hcur)), ?_, ?_, ?_⟩
      · intro s hs
        rw [hlist] at hs
        have hmem : stormPair s ∈ statePairs final := by
          rw [hsp]
          exact List.mem_map_of_mem _ hs
        rcases List.mem_append.mp hs with hs' | hs'
        · exact ⟨(depthPos s hs').1, (depthPos s hs').2, startLe _ hmem⟩
        · have hfc : s = finalize_storm c := by simpa using hs'
          subst hfc
          have hc0 := curPos c hcur
          exact ⟨by simpa [finalize_storm] using hc0.1,
            by simpa [finalize_storm] using hc0.2, startLe _ hmem⟩
      · rw [hlist, ← hsp]
        exact sep
      · rw [hlist, ← hsp]
        exact gapChain
      · intro p hp
        rw [hlist, ← hsp] at hp
        exact startLe p hp

/-- From the pairwise separation, the dry-gap chain on adjacent storms and
per-storm `start ≤ end`, any two storms `i < j` of the list are separated by
strictly more than `G` seconds. -/
theorem sep_of_chain {G : ℚ} {l : List Storm}
    (hsep : (l.map stormPair).Pairwise (fun a b => a.2 ≤ b.1))
    (hchain : (l.map stormPair).Chain' (fun a b => b.1 - a.2 > G))
    (hpairs : ∀ p ∈ l.map stormPair, p.1 ≤ p.2) :
    ∀ i j (hi : i < l.length) (hj : j < l.length), i < j →
      (l.get ⟨i, hi⟩).end_time ≤ (l.get ⟨j, hj⟩).start_time ∧
      (l.get ⟨j, hj⟩).start_time - (l.get ⟨i, hi⟩).end_time > G := by
  intro i j hi hj hij
  have hlen : (l.map stormPair).length = l.length := List.length_map _ _
  have hi' : i < (l.map stormPair).length := by rw [hlen]; exact hi
  have hj' : j < (l.map stormPair).length := by rw [hlen]; exact hj
  have hpg := List.pairwise_iff_get.mp hsep ⟨i, hi'⟩ ⟨j, hj'⟩ (Fin.mk_lt_mk.mpr hij)
  simp only [List.get_map, stormPair] at hpg
  have hj1 : j - 1 + 1 = j := by omega
  have hj1' : j - 1 < (l.map stormPair).length - 1 := by rw [hlen]; omega
  have hcg := List.chain'_iff_get.mp hchain (j - 1) hj1'
  simp only [List.get_map, stormPair, hj1] at hcg
  refine ⟨hpg, ?_⟩
  rcases Nat.lt_or_ge i (j - 1) with hlt | hge
  · have hi2' : i < (l.map stormPair).length := hi'
    have hjm1 : j - 1 < (l.map stormPair).length := by rw [hlen]; omega
    have hps := List.pairwise_iff_get.mp hsep ⟨i, hi2'⟩ ⟨j - 1, hjm1⟩
      (Fin.mk_lt_mk.mpr hlt)
    simp only [List.get_map, stormPair] at hps
    have hsl := hpairs (stormPair (l.get ⟨j - 1, by omega⟩))
      (List.mem_map_of_mem _ (l.get_mem _ _))
    simp only [stormPair] at hsl
    linarith
  · have hieq : i = j - 1 := by omega
    subst hieq
    linarith

theorem step_nonpos {gap : ℚ} {st : ScanState} {x : ℚ × ℚ} (h : ¬ 0 < x.2) :
    stepStorm gap st x = st := by
  simp only [stepStorm]
  rw [if_neg h]

theorem foldl_nonpos {gap : ℚ} : ∀ (l : List (ℚ × ℚ)) (st : ScanState),
    (∀ p ∈ l, ¬ 0 < p.2) → l.foldl (stepStorm gap) st = st
  | [], _, _ => rfl
  | x :: xs, st, h => by
      rw [List.foldl_cons, step_nonpos (h x (List.mem_cons_self x xs))]
      exact foldl_nonpos xs st (fun p hp => h p (List.mem_cons_of_mem _ hp))

/-- A rain-positive sample always leaves an open storm whose `end_time` is the
sample's timestamp. -/
theorem step_pos_current {gap : ℚ} {st : ScanState} {x : ℚ × ℚ} (h : 0 < x.2) :
    ∃ c, (stepStorm gap st x).current = some c ∧ c.end_time = x.1 := by
  obtain ⟨S, cur, lr⟩ := st
  rcases cur with _ | c
  · simp only [stepStorm]
    rw [if_pos h]
    exact ⟨_, rfl, rfl⟩
  · rcases lr with _ | lt
    · simp only [stepStorm]
      rw [if_pos h]
      exact ⟨_, rfl, rfl⟩
    · simp only [stepStorm]
      rw [if_pos h]
      by_cases hgap : (x.1 - lt) / 3600 > gap
      · rw [if_pos hgap]
        exact ⟨_, rfl, rfl⟩
      · rw [if_neg hgap]
        exact ⟨_, rfl, rfl⟩

/-- After scanning a list containing a rain-positive sample, a storm is open
and its `end_time` is the timestamp of the last rain-positive sample. -/
theorem foldl_last_pos {gap : ℚ} : ∀ (l : List (ℚ × ℚ)) (st : ScanState),
    (l.filter (fun p => decide (0 < p.2))) ≠ [] →
    ∃ c p, (l.foldl (stepStorm gap) st).current = some c ∧
      (l.filter (fun p => decide (0 < p.2))).getLast? = some p ∧ c.end_time = p.1
  | [], _, h => absurd rfl h
  | x :: xs, st, h => by
      by_cases hxs : (xs.filter (fun p => decide (0 < p.2))) = []
      · have hxpos : 0 < x.2 := by
          by_contra hneg
          apply h
          simp only [List.filter_cons]
          rw [if_neg (by simpa using hneg)]
          exact hxs
        have hall : ∀ p ∈ xs, ¬ 0 < p.2 := by
          intro p hp
          have := List.filter_eq_nil_iff.mp hxs p hp
          simpa using this
        rw [List.foldl_cons, foldl_nonpos xs _ hall]
        obtain ⟨c, hc, hce⟩ := @step_pos_current gap st x hxpos
        refine ⟨c, x, hc, ?_, hce⟩
        simp only [List.filter_cons]
        rw [if_pos (by simpa using hxpos), hxs]
        rfl
      · obtain ⟨c, p, hc, hp, hce⟩ := foldl_last_pos xs (stepStorm gap st x) hxs
        refine ⟨c, p, by rw [List.foldl_cons]; exact hc, ?_, hce⟩
        simp only [List.filter_cons]
        obtain ⟨y, ys, hyy⟩ := List.exists_cons_of_ne_nil hxs
        by_cases hx2 : 0 < x.2
        · rw [if_pos (by simpa using hx2), hyy, List.getLast?_cons_cons, ← hyy]
          exact hp
        · rw [if_neg (by simpa using hx2)]
          exact hp

/-- Claim C1 (counterexample).  The claim states that `hydraulic_coherence`
returns `0.0` whenever either series has fewer than 2 samples (and for
mismatched lengths).  At flow `[0, 1, 2]` and depth `[5]` — a depth series
with a single sample, of mismatched length — the guard does not fire
(`len(flow) = 3`, `flow.std ≠ 0`, and `depth.std()` is NaN, so `== 0` is
`False`) and `flow.corr(depth)` over the single aligned pair is NaN, not
`0.0`. -/
theorem C1_counterexample :
    calculate_hydraulic_coherence [0, 1, 2] [5] = PFloat.nan ∧
    PFloat.nan ≠ PFloat.ofRat 0 := by
  constructor
  · norm_num [calculate_hydraulic_coherence, pstd, PFloat.sqrtNN, PFloat.eqZero,
      sumSqDev, meanQ, pearson, List.zip, List.zipWith]
  · simp [PFloat.ofRat]

/-- Claim C1 (amended).  `hydraulic_coherence` returns `0.0` when the flow
series has fewer than 2 samples, or when either series has at least 2 samples
and zero variance; but when the depth series has fewer than 2 samples while
flow has at least 2 with nonzero variance, it returns NaN (the pandas
correlation over fewer than 2 aligned pairs), not `0.0`; no exception is
raised in any case (the embedding is a total function). -/
theorem C1_amended (flow depth : List ℚ) :
    (flow.length < 2 → calculate_hydraulic_coherence flow depth = PFloat.ofRat 0) ∧
    (2 ≤ flow.length → sumSqDev flow = 0 →
      calculate_hydraulic_coherence flow depth = PFloat.ofRat 0) ∧
    (2 ≤ depth.length → sumSqDev depth = 0 →
      calculate_hydraulic_coherence flow depth = PFloat.ofRat 0) ∧
    (2 ≤ flow.length → sumSqDev flow ≠ 0 → depth.length < 2 →
      calculate_hydraulic_coherence flow depth = PFloat.nan) := by
  refine ⟨fun h => ?_, fun h2 hv => ?_, fun h2 hv => ?_, fun h2 hv hd => ?_⟩
  · simp [calculate_hydraulic_coherence, h]
  · have : (pstd flow).eqZero = true := by
      simp [pstd, Nat.not_lt.mpr h2, PFloat.sqrtNN, PFloat.eqZero, hv]
    simp [calculate_hydraulic_coherence, this]
  · have : (pstd depth).eqZero = true := by
      simp [pstd, Nat.not_lt.mpr h2, PFloat.sqrtNN, PFloat.eqZero, hv]
    simp [calculate_hydraulic_coherence, this]
  · have hlen : ((flow.length : ℚ)) - 1 ≠ 0 := by
      have : flow.length ≠ 1 := by omega
      intro hq
      rw [sub_eq_zero] at hq
      exact this (by exact_mod_cast hq)
    have hf : (pstd flow).eqZero = false := by
      simp only [pstd, Nat.not_lt.mpr h2, if_false, PFloat.sqrtNN, PFloat.eqZero]
      rw [if_neg]
      · simp
      · rw [div_eq_zero_iff]
        push_neg
        exact ⟨hv, hlen⟩
    have hdn : (pstd depth).eqZero = false := by
      simp [pstd, hd, PFloat.eqZero]
    have hz : (flow.zip depth).length < 2 := by
      rw [List.length_zip]
      omega
    simp only [calculate_hydraulic_coherence, hf, hdn, Bool.or_false]
    rw [if_neg (by simp [Nat.not_lt.mpr h2])]
    simp only [pearson]
    rw [if_pos hz]

/-- Claim C1 (witness for the amended theorem): at flow `[1]` (a single
sample) the guard fires and the result is exactly `0.0`, for any depth. -/
theorem C1_amended_witness :
    ([(1 : ℚ)].length < 2) ∧
    calculate_hydraulic_coherence [1] [] = PFloat.ofRat 0 :=
  ⟨by norm_num, (C1_amended [1] []).1 (by norm_num)⟩

/-- Claim C2 (counterexample).  The claim states that `diurnal_flatness`
returns `0.0` on the degenerate cases, including the empty series, and never
returns NaN.  On the empty series `series.mean()` is NaN, the Python guard
`mu <= 0` is `False` on NaN, and `sigma / mu = NaN / NaN` is NaN, not
`0.0`. -/
theorem C2_counterexample :
    calculate_diurnal_flatness [] = PFloat.nan ∧
    PFloat.nan ≠ PFloat.ofRat 0 := by
  constructor
  · norm_num [calculate_diurnal_flatness, pmean, pstd, PFloat.leZero, PFloat.div]
  · simp [PFloat.ofRat]

/-- Claim C2 (amended).  `diurnal_flatness` returns `0.0` when the series is
nonempty with mean `≤ 0`; for a series with at least 2 samples and positive
mean it returns the finite value `std / mean` (never NaN); but on the empty
series, and on a single-sample series with positive value, it returns NaN
(the guard `mu <= 0` is `False` on a NaN mean, and `std` of fewer than 2
samples is NaN); it never raises (the embedding is a total function). -/
theorem C2_amended (series : List ℚ) :
    (series ≠ [] → meanQ series ≤ 0 →
      calculate_diurnal_flatness series = PFloat.ofRat 0) ∧
    (2 ≤ series.length → 0 < meanQ series →
      calculate_diurnal_flatness series = PFloat.div (pstd series) (pmean series) ∧
      calculate_diurnal_flatness series ≠ PFloat.nan) ∧
    (series = [] → calculate_diurnal_flatness series = PFloat.nan) ∧
    (series.length = 1 → 0 < meanQ series →
      calculate_diurnal_flatness series = PFloat.nan) := by
  refine ⟨fun hne hm => ?_, fun h2 hm => ?_, fun he => ?_, fun h1 hm => ?_⟩
  · have : (pmean series).leZero = true := by
      simp only [pmean, List.isEmpty_iff, hne, if_neg, PFloat.ofRat, PFloat.leZero,
        sign', not_lt.mpr hm, if_false, decide_eq_true_eq]
      split_ifs <;> omega
    simp [calculate_diurnal_flatness, this]
  · have hne : series.isEmpty = false := by
      rcases series with _ | _
      · simp at h2
      · simp
    have hmu : pmean series = PFloat.val 1 (meanQ series ^ 2) := by
      simp [pmean, hne, PFloat.ofRat, sign', hm]
    have hstd : pstd series = PFloat.sqrtNN (sumSqDev series / ((series.length : ℚ) - 1)) := by
      simp [pstd, Nat.not_lt.mpr h2]
    constructor
    · simp [calculate_diurnal_flatness, hmu, PFloat.leZero, hstd]
    · simp [calculate_diurnal_flatness, hmu, hstd, PFloat.leZero, PFloat.sqrtNN,
        PFloat.div]
  · subst he
    norm_num [calculate_diurnal_flatness, pmean, pstd, PFloat.leZero, PFloat.div]
  · have hne : series.isEmpty = false := by
      rcases series with _ | _
      · simp at h1
      · simp
    have hmu : pmean series = PFloat.val 1 (meanQ series ^ 2) := by
      simp [pmean, hne, PFloat.ofRat, sign', hm]
    have hstd : pstd series = PFloat.nan := by
      simp [pstd, h1]
    simp [calculate_diurnal_flatness, hmu, hstd, PFloat.leZero, PFloat.div]

/-- Claim C2 (witness for the amended theorem): the single-sample series `[2]`
has positive mean, and the function returns NaN on it. -/
theorem C2_amended_witness :
    ([(2 : ℚ)].length = 1 ∧ 0 < meanQ [2]) ∧
    calculate_diurnal_flatness [2] = PFloat.nan :=
  ⟨⟨rfl, by norm_num [meanQ]⟩,
    (C2_amended [2]).2.2.2 rfl (by norm_num [meanQ])⟩

/-- Claim C3: the metrics record with dropout 25, diurnal CV 0.5, Q-H
correlation 0.5 and completeness 99 (under the code's key names
`depth_dropout_pct`, `flow_cv`, `qh_correlation`, `completeness`) raises
exactly one flag — the dropout check, `25 > 20` — and classifies
`"MODERATE"`. -/
theorem C3_moderate_one_flag :
    flagCount c3Metrics = 1 ∧ generate_rag_status c3Metrics = "MODERATE" := by
  constructor
  · norm_num [flagCount, c3Metrics]
  · norm_num [generate_rag_status, flagCount, c3Metrics]

/-- Claim C4: for the two-burst rainfall series — values 3 and 5 at 15-minute
(900 s) spacing, zero samples spanning more than 6 hours, then values 4 and 2
at 15-minute spacing (gap between the bursts: 23500 − 1800 = 21700 s > 6 h) —
segmentation with `dry_gap_hours = 6` returns exactly 2 storms: storm 1 with
`depth_mm = 8`, `peak_intensity = 5`, status `"Significant"`, and storm 2 with
`depth_mm = 6`, `peak_intensity = 4`, status `"Significant"`. -/
theorem C4_two_storms :
    detect_storms [0, 3, 5, 0, 0, 0, 4, 2]
        [0, 900, 1800, 2700, 10000, 20000, 23500, 24400] 6 =
      [{ id := 1, start_time := 900, end_time := 1800, depth_mm := 8,
         peak_intensity := 5, duration_mins := 15, status := "Significant" },
       { id := 2, start_time := 23500, end_time := 24400, depth_mm := 6,
         peak_intensity := 4, duration_mins := 15, status := "Significant" }] := by
  norm_num [detect_storms, initState, stepStorm, extend, freshStorm, finalize_storm,
    ratTrunc, List.zip, List.zipWith]

/-- Claim C7: a storm whose summed depth is exactly 5.0 and whose peak
intensity is exactly 5.0 finalizes as `"Minor"`: the significance condition is
the strict `depth_mm > 5` or `peak_intensity >= 6`, and neither holds. -/
theorem C7_boundary_minor (c : OpenStorm) (hd : c.data.sum = 5)
    (hp : c.peak_intensity = 5) : (finalize_storm c).status = "Minor" := by
  simp only [finalize_storm, hd, hp]
  rw [if_neg]
  push_neg
  norm_num

/-- Claim C7 (witness): the concrete open storm holding the single sample 5
has depth 5 and peak 5, and finalizes as `"Minor"`. -/
theorem C7_boundary_minor_witness :
    (([(5 : ℚ)] : List ℚ).sum = 5 ∧ ((5 : ℚ) = 5)) ∧
    (finalize_storm
      { id := 1, start_time := 0, end_time := 0, data := [5],
        peak_intensity := 5 }).status = "Minor" :=
  ⟨⟨by norm_num, rfl⟩, C7_boundary_minor _ (by norm_num) rfl⟩

/-- Claim C8: for every metrics record the classifier returns `"GOOD"` exactly
when zero checks flag, `"MODERATE"` exactly when 1 or 2 flag, `"BAD"` exactly
when 3 or more flag; and the empty record (every key absent, so every check
takes its innocent default) flags zero checks and classifies `"GOOD"`. -/
theorem C8_rag_bands (m : Metrics) :
    (generate_rag_status m = "GOOD" ↔ flagCount m = 0) ∧
    (generate_rag_status m = "MODERATE" ↔ 1 ≤ flagCount m ∧ flagCount m ≤ 2) ∧
    (generate_rag_status m = "BAD" ↔ 3 ≤ flagCount m) ∧
    (flagCount emptyMetrics = 0 ∧ generate_rag_status emptyMetrics = "GOOD") := by
  have hempty : flagCount emptyMetrics = 0 := by
    norm_num [flagCount, emptyMetrics]
  refine ⟨?_, ?_, ?_, hempty, ?_⟩
  · simp only [generate_rag_status]
    split_ifs with h0 h12
    · simp [h0]
    · simp
      omega
    · simp
      omega
  · simp only [generate_rag_status]
    split_ifs with h0 h12
    · simp
      omega
    · simp [h12]
    · simp
      omega
  · simp only [generate_rag_status]
    split_ifs with h0 h12
    · simp
      omega
    · simp
      omega
    · simp
      omega
  · simp [generate_rag_status, hempty]

/-- Claim C8 (witness): the bands evaluated at the concrete record of claim
C3 (one flag) and at the empty record (zero flags). -/
theorem C8_rag_bands_witness :
    (generate_rag_status c3Metrics = "MODERATE" ↔
      1 ≤ flagCount c3Metrics ∧ flagCount c3Metrics ≤ 2) ∧
    flagCount emptyMetrics = 0 ∧ generate_rag_status emptyMetrics = "GOOD" :=
  ⟨(C8_rag_bands c3Metrics).2.1, (C8_rag_bands emptyMetrics).2.2.2⟩

/-- Claim C9: the finalized duration is the elapsed seconds divided by 60 and
truncated toward zero; since the span is nonnegative this is the floor of the
elapsed minutes, so fractional minutes are discarded. -/
theorem C9_duration_floor (c : OpenStorm) (h : c.start_time ≤ c.end_time) :
    (finalize_storm c).duration_mins = ⌊(c.end_time - c.start_time) / 60⌋ := by
  have hq : (0 : ℚ) ≤ (c.end_time - c.start_time) / 60 := by
    apply div_nonneg (by linarith) (by norm_num)
  simp only [finalize_storm, ratTrunc]
  rw [Int.tdiv_eq_ediv (Rat.num_nonneg.mpr hq) (Int.ofNat_nonneg _)]
  exact (Rat.floor_def).symm

/-- Claim C9 (witness): a burst spanning 90 seconds (start 0, end 90) reports
`duration_mins = 1`, not 1.5. -/
theorem C9_duration_floor_witness :
    ((0 : ℚ) ≤ 90) ∧
    (finalize_storm
      { id := 1, start_time := 0, end_time := 90, data := [2],
        peak_intensity := 2 }).duration_mins = 1 :=
  ⟨by norm_num,
    (C9_duration_floor
      { id := 1, start_time := 0, end_time := 90, data := [2],
        peak_intensity := 2 } (by norm_num)).trans (by norm_num)⟩

/-- Claim C5: for every chronologically ordered rainfall series and every
`dry_gap_hours`, the storms come out with sequential ids starting at 1 in
increasing time order (an earlier storm ends no later than a later one
starts), and any two distinct storms are separated — measured from the last
rain-positive sample (`end_time`) of the earlier to the first rain-positive
sample (`start_time`) of the later — by strictly more than `dry_gap_hours`
hours. -/
theorem C5_sequential_separated (rainfall timestamps : List ℚ) (gap : ℚ)
    (hsort : timestamps.Pairwise (· ≤ ·)) :
    ∀ i j, i < j → j < (detect_storms rainfall timestamps gap).length →
      ((detect_storms rainfall timestamps gap).getD i dummyStorm).id = i + 1 ∧
      ((detect_storms rainfall timestamps gap).getD j dummyStorm).id = j + 1 ∧
      ((detect_storms rainfall timestamps gap).getD i dummyStorm).end_time ≤
        ((detect_storms rainfall timestamps gap).getD j dummyStorm).start_time ∧
      gap < (((detect_storms rainfall timestamps gap).getD j dummyStorm).start_time -
        ((detect_storms rainfall timestamps gap).getD i dummyStorm).end_time) / 3600 := by
  obtain ⟨hpos, hids, hsep, hchain, hple⟩ := detect_storms_inv rainfall timestamps gap hsort
  intro i j hij hj
  have hi : i < (detect_storms rainfall timestamps gap).length := lt_trans hij hj
  rw [List.getD_eq_get _ _ hi, List.getD_eq_get _ _ hj]
  obtain ⟨hle, hgap⟩ := sep_of_chain hsep hchain hple i j hi hj hij
  exact ⟨hids i hi, hids j hj, hle,
    (lt_div_iff₀ (by norm_num : (0 : ℚ) < 3600)).mpr (by linarith)⟩

/-- Claim C5 (witness): rainfall `[1, 1]` at timestamps `[0, 20000]` with
`dry_gap_hours = 1` produces two storms (the 20000 s ≈ 5.6 h gap exceeds
1 h), with ids 1 and 2 and the separation ratio exceeding 1 hour. -/
theorem C5_sequential_separated_witness :
    List.Pairwise (· ≤ ·) ([0, 20000] : List ℚ) ∧ 0 < 1 ∧
    1 < (detect_storms [1, 1] [0, 20000] 1).length ∧
    ((detect_storms [1, 1] [0, 20000] 1).getD 0 dummyStorm).id = 0 + 1 ∧
    ((detect_storms [1, 1] [0, 20000] 1).getD 1 dummyStorm).id = 1 + 1 ∧
    (1 : ℚ) < (((detect_storms [1, 1] [0, 20000] 1).getD 1 dummyStorm).start_time -
      ((detect_storms [1, 1] [0, 20000] 1).getD 0 dummyStorm).end_time) / 3600 := by
  have hsort : List.Pairwise (· ≤ ·) ([0, 20000] : List ℚ) := by norm_num
  have hlen : 1 < (detect_storms [1, 1] [0, 20000] 1).length := by
    norm_num [detect_storms, initState, stepStorm, extend, freshStorm,
      finalize_storm, ratTrunc, List.zip, List.zipWith]
  have h := C5_sequential_separated [1, 1] [0, 20000] 1 hsort 0 1 (by norm_num) hlen
  exact ⟨hsort, by norm_num, hlen, h.1, h.2.1, h.2.2.2⟩

/-- Claim C6: whenever the aligned series contain at least one rain-positive
sample, the storm still open at the end of the scan is finalized after the
loop: the result is nonempty and its last element's `end_time` is the
timestamp of the last rain-positive sample — the final burst is never
dropped. -/
theorem C6_last_storm_kept (rainfall timestamps : List ℚ) (gap : ℚ)
    (h : ∃ p ∈ timestamps.zip rainfall, 0 < p.2) :
    detect_storms rainfall timestamps gap ≠ [] ∧
    ∃ s p, (detect_storms rainfall timestamps gap).getLast? = some s ∧
      ((timestamps.zip rainfall).filter (fun q => decide (0 < q.2))).getLast? = some p ∧
      s.end_time = p.1 := by
  have hfil : ((timestamps.zip rainfall).filter (fun q => decide (0 < q.2))) ≠ [] := by
    obtain ⟨p, hp, hpos⟩ := h
    intro hnil
    have hnp := List.filter_eq_nil_iff.mp hnil p hp
    simp at hnp
    exact absurd hpos (by simpa using hnp)
  have hre : rainfall.isEmpty = false := by
    rcases rainfall with _ | ⟨a, l⟩
    · exfalso
      apply hfil
      simp [List.zip_nil_right]
    · rfl
  obtain ⟨c, p, hc, hp, hce⟩ :=
    @foldl_last_pos gap (timestamps.zip rainfall) initState hfil
  have hres : detect_storms rainfall timestamps gap =
      ((timestamps.zip rainfall).foldl (stepStorm gap) initState).storms
        ++ [finalize_storm c] := by
    simp only [detect_storms, hre, Bool.false_eq_true, if_false]
    rw [hc]
  refine ⟨by simp [hres], finalize_storm c, p, ?_, hp, hce⟩
  rw [hres]
  exact List.getLast?_concat _

/-- Claim C6 (witness): rainfall `[0, 2]` at timestamps `[0, 60]` has the
rain-positive sample `(60, 2)`; the result is nonempty and its last storm ends
at 60, the last rain-positive timestamp. -/
theorem C6_last_storm_kept_witness :
    (∃ p ∈ ([0, 60] : List ℚ).zip ([0, 2] : List ℚ), 0 < p.2) ∧
    detect_storms [0, 2] [0, 60] 6 ≠ [] ∧
    ∃ s p, (detect_storms [0, 2] [0, 60] 6).getLast? = some s ∧
      ((([0, 60] : List ℚ).zip ([0, 2] : List ℚ)).filter
        (fun q => decide (0 < q.2))).getLast? = some p ∧ s.end_time = p.1 := by
  have hex : ∃ p ∈ ([0, 60] : List ℚ).zip ([0, 2] : List ℚ), 0 < p.2 := by
    refine ⟨(60, 2), ?_, by norm_num⟩
    simp [List.zip, List.zipWith]
  exact ⟨hex, C6_last_storm_kept [0, 2] [0, 60] 6 hex⟩

/-- Claim C10: for every chronologically ordered input series and every
`dry_gap_hours`, every storm in the result holds at least one rain-positive
sample, so its depth and peak intensity are strictly positive and its
`start_time` is at most its `end_time`; no empty or zero-depth storm is ever
emitted. -/
theorem C10_storms_nonempty (rainfall timestamps : List ℚ) (gap : ℚ)
    (hsort : timestamps.Pairwise (· ≤ ·)) :
    ∀ s ∈ detect_storms rainfall timestamps gap,
      0 < s.depth_mm ∧ 0 < s.peak_intensity ∧ s.start_time ≤ s.end_time :=
  (detect_storms_inv rainfall timestamps gap hsort).1

/-- Claim C10 (witness): at rainfall `[1, 2]`, timestamps `[0, 60]`, gap 6,
the single storm `{id 1, start 0, end 60, depth 3, peak 2, duration 1,
Minor}` is in the result and has positive depth, positive peak and
`start ≤ end`. -/
theorem C10_storms_nonempty_witness :
    List.Pairwise (· ≤ ·) ([0, 60] : List ℚ) ∧
    c10Storm ∈ detect_storms [1, 2] [0, 60] 6 ∧
    0 < c10Storm.depth_mm ∧ 0 < c10Storm.peak_intensity ∧
    c10Storm.start_time ≤ c10Storm.end_time := by
  have hsort : List.Pairwise (· ≤ ·) ([0, 60] : List ℚ) := by norm_num
  have hmem : c10Storm ∈ detect_storms [1, 2] [0, 60] 6 := by
    norm_num [c10Storm, detect_storms, initState, stepStorm, extend, freshStorm,
      finalize_storm, ratTrunc, List.zip, List.zipWith]
  have h := C10_storms_nonempty [1, 2] [0, 60] 6 hsort _ hmem
  exact ⟨hsort, hmem, h.1, h.2.1, h.2.2⟩

end Theorems

end SewerQA
